import Mathlib

/-!
Shallow embedding of the misosoup signaling core (src/vc.rs, src/vcreg.rs,
src/peer.rs, src/message.rs) and proofs checking the natural-language
specification against it.

The VC roster (`HashMap<PeerId, Vec<Producer>>`) is modelled as an
association list with first-match lookup/update semantics, matching the
unique-key behaviour of the hash map.  Event emissions are made explicit:
each VC operation returns the new roster together with the list of bus
events it emits, in emission order.
-/

namespace Misosoup

/-- `PeerId(String)` from peer.rs. -/
abbrev PeerId := String

/-- `VcId(String)` from vc.rs. -/
abbrev VcId := String

/-- `ProducerId` assigned by the media engine; opaque id. -/
abbrev ProducerId := String

/-- `ConsumerId` assigned by the media engine; opaque id. -/
abbrev ConsumerId := String

/-- A media-engine `Producer` handle; only its id is relevant to the roster
logic (`producer.id()` in vc.rs). -/
structure Producer where
  id : ProducerId
deriving DecidableEq

/-- A media-engine `Consumer` handle; only its id is relevant here. -/
structure Consumer where
  id : ConsumerId
deriving DecidableEq

/-- `Notification` from message.rs: tagged value carrying the subject PeerId. -/
inductive Notification where
  | PeerJoin (peer_id : PeerId)
  | PeerLeave (peer_id : PeerId)
  | Loading (peer_id : PeerId)
  | Playing (peer_id : PeerId)
  | Idle (peer_id : PeerId)
deriving DecidableEq

/-- `Notification::associated_peer_id` from message.rs: every variant carries
a subject peer id. -/
def Notification.associated_peer_id : Notification → Option PeerId
  | Notification.PeerJoin peer_id => some peer_id
  | Notification.PeerLeave peer_id => some peer_id
  | Notification.Loading peer_id => some peer_id
  | Notification.Playing peer_id => some peer_id
  | Notification.Idle peer_id => some peer_id

/-- `NotificationType` from message.rs (client-supplied notification kind). -/
inductive NotificationType where
  | Loading
  | Playing
  | Idle
deriving DecidableEq

/-- A VC bus event, one per multi-handler bag in vc.rs (`Handlers`). -/
inductive Event where
  | notification (n : Notification)
  | producer_add (peer_id : PeerId) (producer : Producer)
  | producer_remove (peer_id : PeerId) (producer_id : ProducerId)
  | echo (peer_id : PeerId) (text : String)
deriving DecidableEq

/-- The VC roster: `clients: Mutex<HashMap<PeerId, Vec<Producer>>>` from
vc.rs, as an association list. -/
abbrev Roster := List (PeerId × List Producer)

/-- First-match lookup, the `HashMap::get` of the model. -/
def lookupRoster : Roster → PeerId → Option (List Producer)
  | [], _ => none
  | (q, prs) :: rest, p => if q = p then some prs else lookupRoster rest p

/-- `clients.entry(peer_id).or_default()`: keep an existing entry, insert an
empty producer list otherwise. -/
def rosterEntryOrDefault : Roster → PeerId → Roster
  | [], p => [(p, [])]
  | (q, prs) :: rest, p =>
      if q = p then (q, prs) :: rest
      else (q, prs) :: rosterEntryOrDefault rest p

/-- `clients.entry(peer_id).or_default().push(producer)` from
`Vc::add_producer`. -/
def pushProducer : Roster → PeerId → Producer → Roster
  | [], p, pr => [(p, [pr])]
  | (q, prs) :: rest, p, pr =>
      if q = p then (q, prs ++ [pr]) :: rest
      else (q, prs) :: pushProducer rest p pr

/-- `clients.remove(peer_id)` from `Vc::remove_peer`: returns the removed
producer list (if any) and the remaining roster. -/
def rosterRemove : Roster → PeerId → Option (List Producer) × Roster
  | [], _ => (none, [])
  | (q, prs) :: rest, p =>
      if q = p then (some prs, rest)
      else
        let res := rosterRemove rest p
        (res.1, (q, prs) :: res.2)

/-- `if let Some(producers) = clients.get_mut(peer_id) { producers.retain(|p|
&p.id() != producer_id) }` from `Vc::remove_producer`. -/
def retainProducers : Roster → PeerId → ProducerId → Roster
  | [], _, _ => []
  | (q, prs) :: rest, p, pid =>
      if q = p then (q, prs.filter (fun pr => pr.id ≠ pid)) :: rest
      else (q, prs) :: retainProducers rest p pid

/-- `Vc::add_peer`: insert an empty producer list if absent, then emit
`notification(PeerJoin)` (unconditionally). -/
def add_peer (roster : Roster) (peer_id : PeerId) : Roster × List Event :=
  (rosterEntryOrDefault roster peer_id,
   [Event.notification (Notification.PeerJoin peer_id)])

/-- `Vc::add_producer`: append to the peer's list (creating it if absent),
then emit `producer_add`. -/
def add_producer (roster : Roster) (peer_id : PeerId) (producer : Producer) :
    Roster × List Event :=
  (pushProducer roster peer_id producer, [Event.producer_add peer_id producer])

/-- `Vc::remove_peer`: remove the roster entry first; then emit one
`producer_remove` per producer that was owned by the peer; then emit
`notification(PeerLeave)` (unconditionally). -/
def remove_peer (roster : Roster) (peer_id : PeerId) : Roster × List Event :=
  let res := rosterRemove roster peer_id
  (res.2,
   (res.1.getD []).map (fun pr => Event.producer_remove peer_id pr.id)
     ++ [Event.notification (Notification.PeerLeave peer_id)])

/-- `Vc::remove_peer` with each emitted event paired with the roster in
effect at emission time: the map removal happens before the emission loop in
the source, so every event observes the post-removal roster. -/
def remove_peer_trace (roster : Roster) (peer_id : PeerId) :
    List (Event × Roster) :=
  let res := rosterRemove roster peer_id
  (res.1.getD []).map (fun pr => (Event.producer_remove peer_id pr.id, res.2))
    ++ [(Event.notification (Notification.PeerLeave peer_id), res.2)]

/-- `Vc::remove_producer`: drop matching handles from the peer's list (if the
peer is present), then emit `producer_remove` unconditionally. -/
def remove_producer (roster : Roster) (peer_id : PeerId)
    (producer_id : ProducerId) : Roster × List Event :=
  (retainProducers roster peer_id producer_id,
   [Event.producer_remove peer_id producer_id])

/-- `Vc::get_all_peers`. -/
def get_all_peers (roster : Roster) : List PeerId :=
  roster.map Prod.fst

/-- `Vc::get_all_producers`: one `(peer_id, producer.id())` pair per producer
handle in the roster. -/
def get_all_producers (roster : Roster) : List (PeerId × ProducerId) :=
  roster.flatMap (fun e => e.2.map (fun pr => (e.1, pr.id)))

/-- A sequence of `Vc::add_producer` calls for one peer, accumulating the
roster and the emitted events in order. -/
def addProducersSeq (roster : Roster) (peer_id : PeerId) :
    List Producer → Roster × List Event
  | [] => (roster, [])
  | pr :: rest =>
      let s1 := add_producer roster peer_id pr
      let s2 := addProducersSeq s1.1 peer_id rest
      (s2.1, s1.2 ++ s2.2)

/-- Recognize a `PeerJoin` notification event. -/
def isPeerJoinEvent : Event → Bool
  | Event.notification (Notification.PeerJoin _) => true
  | _ => false

/-- Recognize a `PeerLeave` notification event. -/
def isPeerLeaveEvent : Event → Bool
  | Event.notification (Notification.PeerLeave _) => true
  | _ => false

/-! ## Peer Session (peer.rs, message.rs) -/

/-- Client RTP capabilities; opaque to the core (message.rs `C2S::Init`). -/
abbrev RtpCapabilities := String

/-- DTLS parameters; opaque to the core. -/
abbrev DtlsParameters := String

/-- RTP parameters; opaque to the core. -/
abbrev RtpParameters := String

/-- `MediaKind` from the media engine. -/
inductive MediaKind where
  | Audio
  | Video
deriving DecidableEq

/-- Server-to-client messages (message.rs `S2C`), with engine-opaque payloads
reduced to the fields the core logic inspects. -/
inductive S2C where
  | Init (vc_id : VcId)
  | ProducerAdd (peer_id : PeerId) (producer_id : ProducerId)
  | ProducerRemove (peer_id : PeerId) (producer_id : ProducerId)
  | Echo (peer_id : PeerId) (text : String)
  | ConnectedProducerTransport
  | ProducerCreated (id : ProducerId)
  | ConnectedConsumerTransport
  | ConsumerCreated (id : ConsumerId) (producer_id : ProducerId)
      (kind : MediaKind) (rtp_parameters : RtpParameters)
  | Notification (n : Notification)
deriving DecidableEq

/-- The `on_notification` callback registered in `PeerConnection::started`
(peer.rs): if the notification's associated peer id equals the session's own
id, return without sending; otherwise forward the notification. `none` models
the early `return`. -/
def notification_callback (own_peer_id : PeerId) (n : Notification) :
    Option S2C :=
  match n.associated_peer_id with
  | some peer_id =>
      if peer_id = own_peer_id then none else some (S2C.Notification n)
  | none => some (S2C.Notification n)

/-- The `on_echo` callback registered in `PeerConnection::started`. -/
def echo_callback (own_peer_id : PeerId) (peer_id : PeerId) (text : String) :
    Option S2C :=
  if own_peer_id = peer_id then none else some (S2C.Echo peer_id text)

/-- The `on_producer_add` callback registered in `PeerConnection::started`. -/
def producer_add_callback (own_peer_id : PeerId) (peer_id : PeerId)
    (producer : Producer) : Option S2C :=
  if own_peer_id = peer_id then none
  else some (S2C.ProducerAdd peer_id producer.id)

/-- The `on_producer_remove` callback registered in
`PeerConnection::started`. -/
def producer_remove_callback (own_peer_id : PeerId) (peer_id : PeerId)
    (producer_id : ProducerId) : Option S2C :=
  if own_peer_id = peer_id then none
  else some (S2C.ProducerRemove peer_id producer_id)

/-- Which VC bus a `started` subscription attaches to. -/
inductive SubKind where
  | notification
  | echo
  | producer_add
  | producer_remove
deriving DecidableEq

/-- One observable action of `PeerConnection::started`, in program order. -/
inductive StartAction where
  | sendInit (vc_id : VcId)
  | sendNotification (n : Notification)
  | vcAddPeer (peer_id : PeerId)
  | subscribe (k : SubKind)
  | sendProducerAdd (peer_id : PeerId) (producer_id : ProducerId)
deriving DecidableEq

/-- `PeerConnection::started` (peer.rs, `impl Actor`): send `Init`; send one
`PeerJoin` per peer of a `get_all_peers` snapshot; `add_peer(self.id)`;
subscribe to the four bus events; send one `ProducerAdd` per pair of a
`get_all_producers` snapshot.  Returns the action list in program order, the
roster after the self-announce, and the bus events the self-announce
emitted. -/
def PeerConnection.started (selfId : PeerId) (vcId : VcId) (roster : Roster) :
    List StartAction × Roster × List Event :=
  let actions1 := [StartAction.sendInit vcId]
  let peers := get_all_peers roster
  let actions2 := actions1 ++
    peers.map (fun q => StartAction.sendNotification (Notification.PeerJoin q))
  let announce := add_peer roster selfId
  let actions3 := actions2 ++ [StartAction.vcAddPeer selfId]
  let actions4 := actions3 ++
    [StartAction.subscribe SubKind.notification,
     StartAction.subscribe SubKind.echo,
     StartAction.subscribe SubKind.producer_add,
     StartAction.subscribe SubKind.producer_remove]
  let prods := get_all_producers announce.1
  let actions5 := actions4 ++
    prods.map (fun pq => StartAction.sendProducerAdd pq.1 pq.2)
  (actions5, announce.1, announce.2)

/-- Client-to-server messages (message.rs `C2S`). -/
inductive C2S where
  | Init (rtp_capabilities : RtpCapabilities)
  | ConnectProducerTransport (dtls_parameters : DtlsParameters)
  | Produce (kind : MediaKind) (rtp_parameters : RtpParameters)
  | ProducerRemove (producer_id : ProducerId)
  | ConnectConsumerTransport (dtls_parameters : DtlsParameters)
  | Consume (producer_id : ProducerId)
  | ConsumerResume (id : ConsumerId)
  | Echo (text : String)
  | Notification (kind : NotificationType)
deriving DecidableEq

/-- A synchronous effect of `Handler<C2S>::handle` (peer.rs): a spawned
asynchronous media-engine task, a VC call, or a log line.  `stop` stands for
posting `InternalMessage::Stop`; the synchronous handler itself never posts
it (only spawned tasks do, on failure). -/
inductive SessionEffect where
  | spawnConnectProducerTransport (dtls_parameters : DtlsParameters)
  | spawnProduce (kind : MediaKind) (rtp_parameters : RtpParameters)
  | vcRemoveProducer (peer_id : PeerId) (producer_id : ProducerId)
  | spawnConnectConsumerTransport (dtls_parameters : DtlsParameters)
  | spawnConsume (producer_id : ProducerId) (rtp_capabilities : RtpCapabilities)
  | spawnConsumerResume (c : Consumer)
  | vcEcho (peer_id : PeerId) (text : String)
  | vcNotify (peer_id : PeerId) (kind : NotificationType)
  | logNoCapabilities (peer_id : PeerId)
  | stop
deriving DecidableEq

/-- The session-local mutable state of `PeerConnection` that `Handler<C2S>`
reads or writes. -/
structure SessionState where
  id : PeerId
  client_rtp_capabilities : Option RtpCapabilities
  consumers : List (ConsumerId × Consumer)
  producers : List Producer
deriving DecidableEq

/-- First-match lookup in the session's consumer map
(`self.consumers.get(&id)`). -/
def lookupConsumer : List (ConsumerId × Consumer) → ConsumerId →
    Option Consumer
  | [], _ => none
  | (i, c) :: rest, j => if i = j then some c else lookupConsumer rest j

/-- `Handler<C2S>::handle` (peer.rs): the synchronous part of each message
branch, returning the updated session state and the effects performed, in
order.  `Consume` requires previously stored client capabilities: without
them it logs and returns without spawning anything. -/
def handleC2S (s : SessionState) (msg : C2S) :
    SessionState × List SessionEffect :=
  match msg with
  | C2S.Init rtp_capabilities =>
      ({ s with client_rtp_capabilities := some rtp_capabilities }, [])
  | C2S.ConnectProducerTransport dtls_parameters =>
      (s, [SessionEffect.spawnConnectProducerTransport dtls_parameters])
  | C2S.Produce kind rtp_parameters =>
      (s, [SessionEffect.spawnProduce kind rtp_parameters])
  | C2S.ProducerRemove producer_id =>
      (s, [SessionEffect.vcRemoveProducer s.id producer_id])
  | C2S.ConnectConsumerTransport dtls_parameters =>
      (s, [SessionEffect.spawnConnectConsumerTransport dtls_parameters])
  | C2S.Consume producer_id =>
      match s.client_rtp_capabilities with
      | some rtp_capabilities =>
          (s, [SessionEffect.spawnConsume producer_id rtp_capabilities])
      | none => (s, [SessionEffect.logNoCapabilities s.id])
  | C2S.ConsumerResume i =>
      match lookupConsumer s.consumers i with
      | some c => (s, [SessionEffect.spawnConsumerResume c])
      | none => (s, [])
  | C2S.Echo text => (s, [SessionEffect.vcEcho s.id text])
  | C2S.Notification kind => (s, [SessionEffect.vcNotify s.id kind])

/-- Recognize a spawned consume task among session effects (the only place
the session creates a consumer and later sends `ConsumerCreated`). -/
def isSpawnConsume : SessionEffect → Bool
  | SessionEffect.spawnConsume _ _ => true
  | _ => false

/-! ## VC Registry (vcreg.rs) -/

/-- A `WeakVc` stored in the registry map: `inst` identifies the concrete
`VcInner` allocation, `alive` whether a strong reference still exists (so
whether `upgrade` succeeds). -/
structure WeakVc where
  inst : Nat
  alive : Bool
deriving DecidableEq

/-- `WeakVc::upgrade` (vc.rs): yields the instance while it is alive. -/
def WeakVc.upgrade (w : WeakVc) : Option Nat :=
  if w.alive then some w.inst else none

/-- The registry map `HashMap<VcId, WeakVc>` (vcreg.rs). -/
abbrev Registry := List (VcId × WeakVc)

/-- First-match lookup in the registry map. -/
def registryLookup : Registry → VcId → Option WeakVc
  | [], _ => none
  | (i, w) :: rest, j => if i = j then some w else registryLookup rest j

/-- `entry.insert` / vacant-entry insert: replace the first entry under the
id, append if absent. -/
def registryInsert : Registry → VcId → WeakVc → Registry
  | [], i, w => [(i, w)]
  | (j, v) :: rest, i, w =>
      if j = i then (j, w) :: rest
      else (j, v) :: registryInsert rest i w

/-- `vcs.remove(&vc_id)`: drop the first entry under the id. -/
def registryRemove : Registry → VcId → Registry
  | [], _ => []
  | (j, v) :: rest, i =>
      if j = i then rest else (j, v) :: registryRemove rest i

/-- `VcRegistry::get_or_create_vc` (vcreg.rs): under the registry mutex, if
an entry for the id upgrades, return that VC; otherwise construct a new VC
(instance `fresh`; `createOk` models whether worker/router creation
succeeds), store its weak reference under the id, and return it.  The result
carries the returned instance, the updated map, and whether a new VC was
constructed. -/
def get_or_create_vc (reg : Registry) (vc_id : VcId) (fresh : Nat)
    (createOk : Bool) : Except String (Nat × Registry × Bool) :=
  match registryLookup reg vc_id with
  | some w =>
      match w.upgrade with
      | some vc => Except.ok (vc, reg, false)
      | none =>
          if createOk then
            Except.ok (fresh, registryInsert reg vc_id ⟨fresh, true⟩, true)
          else Except.error "Failed to create worker"
  | none =>
      if createOk then
        Except.ok (fresh, registryInsert reg vc_id ⟨fresh, true⟩, true)
      else Except.error "Failed to create worker"

/-- The close handler `get_or_create_vc` attaches (vcreg.rs): the closure
captures only the `VcId` (not which VC instance it was attached to) and
removes the map entry under that id unconditionally. -/
def vc_close_handler (vcs : Registry) (vc_id : VcId) : Registry :=
  registryRemove vcs vc_id

/-! ## Helper lemmas on the roster model -/

theorem lookupRoster_eq_none_of_not_mem (roster : Roster) (p : PeerId)
    (h : p ∉ roster.map Prod.fst) : lookupRoster roster p = none := by
  induction roster with
  | nil => rfl
  | cons e rest ih =>
      obtain ⟨q, prs⟩ := e
      simp only [List.map_cons, List.mem_cons] at h
      push_neg at h
      have hq : ¬ q = p := fun hq => h.1 hq.symm
      simp only [lookupRoster, if_neg hq]
      exact ih h.2

theorem rosterRemove_fst (roster : Roster) (p : PeerId) :
    (rosterRemove roster p).1 = lookupRoster roster p := by
  induction roster with
  | nil => rfl
  | cons e rest ih =>
      obtain ⟨q, prs⟩ := e
      by_cases hq : q = p
      · simp [rosterRemove, lookupRoster, hq]
      · simp [rosterRemove, lookupRoster, hq, ih]

theorem rosterRemove_of_lookup_none (roster : Roster) (p : PeerId)
    (h : lookupRoster roster p = none) : rosterRemove roster p = (none, roster) := by
  induction roster with
  | nil => rfl
  | cons e rest ih =>
      obtain ⟨q, prs⟩ := e
      by_cases hq : q = p
      · simp [lookupRoster, hq] at h
      · simp only [lookupRoster, if_neg hq] at h
        simp [rosterRemove, hq, ih h]

theorem lookup_rosterRemove_self_of_nodup (roster : Roster) (p : PeerId)
    (hnd : (roster.map Prod.fst).Nodup) :
    lookupRoster (rosterRemove roster p).2 p = none := by
  induction roster with
  | nil => rfl
  | cons e rest ih =>
      obtain ⟨q, prs⟩ := e
      simp only [List.map_cons, List.nodup_cons] at hnd
      by_cases hq : q = p
      · simp only [rosterRemove, if_pos hq]
        exact lookupRoster_eq_none_of_not_mem rest p (hq ▸ hnd.1)
      · simp [rosterRemove, hq, lookupRoster, ih hnd.2]

theorem rosterEntryOrDefault_of_mem (roster : Roster) (p : PeerId)
    (h : p ∈ roster.map Prod.fst) : rosterEntryOrDefault roster p = roster := by
  induction roster with
  | nil => simp at h
  | cons e rest ih =>
      obtain ⟨q, prs⟩ := e
      simp only [List.map_cons, List.mem_cons] at h
      by_cases hq : q = p
      · simp [rosterEntryOrDefault, hq]
      · rcases h with h | h
        · exact absurd h.symm hq
        · simp [rosterEntryOrDefault, hq, ih h]

theorem rosterEntryOrDefault_of_lookup_none (roster : Roster) (p : PeerId)
    (h : lookupRoster roster p = none) :
    rosterEntryOrDefault roster p = roster ++ [(p, [])] := by
  induction roster with
  | nil => rfl
  | cons e rest ih =>
      obtain ⟨q, prs⟩ := e
      by_cases hq : q = p
      · simp [lookupRoster, hq] at h
      · simp only [lookupRoster, if_neg hq] at h
        simp [rosterEntryOrDefault, hq, ih h]

theorem pushProducer_append_of_lookup_none (roster : Roster) (p : PeerId)
    (l : List Producer) (pr : Producer) (h : lookupRoster roster p = none) :
    pushProducer (roster ++ [(p, l)]) p pr = roster ++ [(p, l ++ [pr])] := by
  induction roster with
  | nil => simp [pushProducer]
  | cons e rest ih =>
      obtain ⟨q, prs⟩ := e
      by_cases hq : q = p
      · simp [lookupRoster, hq] at h
      · simp only [lookupRoster, if_neg hq] at h
        simp [pushProducer, hq, ih h]

theorem rosterRemove_append_of_lookup_none (roster : Roster) (p : PeerId)
    (l : List Producer) (h : lookupRoster roster p = none) :
    rosterRemove (roster ++ [(p, l)]) p = (some l, roster) := by
  induction roster with
  | nil => simp [rosterRemove]
  | cons e rest ih =>
      obtain ⟨q, prs⟩ := e
      by_cases hq : q = p
      · simp [lookupRoster, hq] at h
      · simp only [lookupRoster, if_neg hq] at h
        simp [rosterRemove, hq, ih h]

theorem addProducersSeq_append_of_lookup_none (roster : Roster) (p : PeerId)
    (prs : List Producer) (l : List Producer)
    (h : lookupRoster roster p = none) :
    addProducersSeq (roster ++ [(p, l)]) p prs =
      (roster ++ [(p, l ++ prs)],
       prs.map (fun pr => Event.producer_add p pr)) := by
  induction prs generalizing l with
  | nil => simp [addProducersSeq]
  | cons pr rest ih =>
      simp only [addProducersSeq, add_producer,
        pushProducer_append_of_lookup_none roster p l pr h, ih (l ++ [pr])]
      simp

theorem lookup_retainProducers_self (roster : Roster) (p : PeerId)
    (pid : ProducerId) :
    lookupRoster (retainProducers roster p pid) p =
      (lookupRoster roster p).map (List.filter (fun pr => pr.id ≠ pid)) := by
  induction roster with
  | nil => rfl
  | cons e rest ih =>
      obtain ⟨q, prs⟩ := e
      by_cases hq : q = p
      · simp [retainProducers, lookupRoster, hq]
      · simp [retainProducers, lookupRoster, hq, ih]

theorem retainProducers_filter_ne (roster : Roster) (p : PeerId)
    (pid : ProducerId) :
    (retainProducers roster p pid).filter (fun e => e.1 ≠ p) =
      roster.filter (fun e => e.1 ≠ p) := by
  induction roster with
  | nil => rfl
  | cons e rest ih =>
      obtain ⟨q, prs⟩ := e
      by_cases hq : q = p
      · simp [retainProducers, hq, List.filter]
      · simp only [retainProducers, if_neg hq]
        simp [List.filter, hq]
        simpa using ih

theorem retainProducers_idem (roster : Roster) (p : PeerId)
    (pid : ProducerId) :
    retainProducers (retainProducers roster p pid) p pid =
      retainProducers roster p pid := by
  induction roster with
  | nil => rfl
  | cons e rest ih =>
      obtain ⟨q, prs⟩ := e
      by_cases hq : q = p
      · simp [retainProducers, hq, List.filter_filter]
      · simp [retainProducers, hq, ih]

theorem remove_peer_trace_events (roster : Roster) (p : PeerId) :
    (remove_peer_trace roster p).map Prod.fst = (remove_peer roster p).2 := by
  simp [remove_peer_trace, remove_peer]

theorem remove_peer_trace_rosters (roster : Roster) (p : PeerId) :
    (remove_peer_trace roster p).map Prod.snd =
      List.replicate ((remove_peer roster p).2.length) (remove_peer roster p).1 := by
  simp only [remove_peer_trace, remove_peer, List.map_append, List.map_map,
    List.length_append, List.length_map, List.map_cons, List.map_nil,
    List.length_cons, List.length_nil]
  induction ((rosterRemove roster p).1.getD []) with
  | nil => simp [List.replicate]
  | cons pr rest ih =>
      simp only [List.map_cons, List.length_cons, Function.comp] at ih ⊢
      rw [List.replicate_succ]
      simpa using ih

/-! ## Claim theorems -/

/-- Claim C2: when peer `p` is present in the roster owning producers `qs`,
`remove_peer p` removes `p`'s roster entry, emits one `producer_remove(p, q)`
per owned producer followed by the `PeerLeave` notification (so every
`producer_remove` precedes the `PeerLeave`), and every emitted event observes
the already-applied roster mutation (the emission trace pairs each event with
the post-removal roster). -/
theorem remove_peer_present_spec (roster : Roster) (p : PeerId)
    (qs : List Producer) (hnd : (roster.map Prod.fst).Nodup)
    (h : lookupRoster roster p = some qs) :
    (remove_peer roster p).2 =
        qs.map (fun pr => Event.producer_remove p pr.id)
          ++ [Event.notification (Notification.PeerLeave p)]
      ∧ lookupRoster (remove_peer roster p).1 p = none
      ∧ (remove_peer_trace roster p).map Prod.fst = (remove_peer roster p).2
      ∧ (remove_peer_trace roster p).map Prod.snd =
          List.replicate ((remove_peer roster p).2.length)
            (remove_peer roster p).1 := by
  refine ⟨?_, ?_, remove_peer_trace_events roster p,
    remove_peer_trace_rosters roster p⟩
  · simp [remove_peer, rosterRemove_fst, h]
  · simpa [remove_peer] using lookup_rosterRemove_self_of_nodup roster p hnd

/-- Claim C2 witness: a concrete roster where peer `a` owns two producers. -/
theorem remove_peer_present_spec_witness :
    lookupRoster [("a", [⟨"q1"⟩, ⟨"q2"⟩]), ("b", [])] "a" =
        some [⟨"q1"⟩, ⟨"q2"⟩]
      ∧ (remove_peer [("a", [⟨"q1"⟩, ⟨"q2"⟩]), ("b", [])] "a").2 =
          [Event.producer_remove "a" "q1", Event.producer_remove "a" "q2",
           Event.notification (Notification.PeerLeave "a")] := by
  refine ⟨by decide, ?_⟩
  have h := remove_peer_present_spec [("a", [⟨"q1"⟩, ⟨"q2"⟩]), ("b", [])] "a"
    [⟨"q1"⟩, ⟨"q2"⟩] (by decide) (by decide)
  rw [h.1]
  decide

/-- Claim C3 counterexample: for a peer id absent from the roster (here the
empty roster), `remove_peer` still emits an event — the `PeerLeave`
notification is emitted unconditionally — refuting "emits no event at
all". -/
theorem remove_peer_unknown_emits :
    (remove_peer ([] : Roster) "a").2 ≠ [] ∧
      (remove_peer ([] : Roster) "a").2 =
        [Event.notification (Notification.PeerLeave "a")] := by
  decide

/-- Claim C3 (amended): for a peer id not present in the roster,
`remove_peer p` leaves the roster unchanged and emits no `producer_remove`,
but it still emits exactly one `PeerLeave{p}` notification. -/
theorem remove_peer_unknown_spec (roster : Roster) (p : PeerId)
    (h : lookupRoster roster p = none) :
    (remove_peer roster p).1 = roster
      ∧ (remove_peer roster p).2 =
          [Event.notification (Notification.PeerLeave p)] := by
  simp [remove_peer, rosterRemove_of_lookup_none roster p h]

/-- Claim C3 witness: the unknown-peer removal at a concrete roster. -/
theorem remove_peer_unknown_spec_witness :
    lookupRoster [("b", [⟨"q1"⟩])] "a" = none
      ∧ (remove_peer [("b", [⟨"q1"⟩])] "a").1 = [("b", [⟨"q1"⟩])]
      ∧ (remove_peer [("b", [⟨"q1"⟩])] "a").2 =
          [Event.notification (Notification.PeerLeave "a")] :=
  ⟨by decide, remove_peer_unknown_spec [("b", [⟨"q1"⟩])] "a" (by decide)⟩

/-- Claim C5: `remove_producer p q` drops from `p`'s producer list exactly
the handles whose id is `q`, leaves every other roster entry unchanged,
emits exactly one `producer_remove(p, q)` whether or not such a producer was
present, and is idempotent on the roster. -/
theorem remove_producer_spec (roster : Roster) (p : PeerId)
    (q : ProducerId) :
    (remove_producer roster p q).2 = [Event.producer_remove p q]
      ∧ lookupRoster (remove_producer roster p q).1 p =
          (lookupRoster roster p).map (List.filter (fun pr => pr.id ≠ q))
      ∧ (remove_producer roster p q).1.filter (fun e => e.1 ≠ p) =
          roster.filter (fun e => e.1 ≠ p)
      ∧ (remove_producer (remove_producer roster p q).1 p q).1 =
          (remove_producer roster p q).1 :=
  ⟨rfl, lookup_retainProducers_self roster p q,
   retainProducers_filter_ne roster p q, retainProducers_idem roster p q⟩

/-- Claim C10: `add_peer p` for a peer already present in the roster leaves
the whole roster (in particular `p`'s existing producer list) unchanged and
still emits the `PeerJoin{p}` notification. -/
theorem add_peer_present_spec (roster : Roster) (p : PeerId)
    (h : p ∈ roster.map Prod.fst) :
    (add_peer roster p).1 = roster
      ∧ (add_peer roster p).2 =
          [Event.notification (Notification.PeerJoin p)] :=
  ⟨by simp [add_peer, rosterEntryOrDefault_of_mem roster p h], rfl⟩

/-- Claim C10 witness: duplicate `add_peer` for peer `a` already holding a
producer. -/
theorem add_peer_present_spec_witness :
    "a" ∈ ([("a", [⟨"q1"⟩])] : Roster).map Prod.fst
      ∧ (add_peer [("a", [⟨"q1"⟩])] "a").1 = [("a", [⟨"q1"⟩])]
      ∧ (add_peer [("a", [⟨"q1"⟩])] "a").2 =
          [Event.notification (Notification.PeerJoin "a")] :=
  ⟨by decide, add_peer_present_spec [("a", [⟨"q1"⟩])] "a" (by decide)⟩

theorem countP_join_map_producer_add (p : PeerId) (l : List Producer) :
    (l.map (fun pr => Event.producer_add p pr)).countP isPeerJoinEvent = 0 := by
  induction l with
  | nil => rfl
  | cons pr rest ih => simp [List.countP_cons, isPeerJoinEvent, ih]

theorem countP_leave_map_producer_add (p : PeerId) (l : List Producer) :
    (l.map (fun pr => Event.producer_add p pr)).countP isPeerLeaveEvent = 0 := by
  induction l with
  | nil => rfl
  | cons pr rest ih => simp [List.countP_cons, isPeerLeaveEvent, ih]

theorem countP_join_map_producer_remove (p : PeerId) (l : List Producer) :
    (l.map (fun pr => Event.producer_remove p pr.id)).countP isPeerJoinEvent
      = 0 := by
  induction l with
  | nil => rfl
  | cons pr rest ih => simp [List.countP_cons, isPeerJoinEvent, ih]

theorem countP_leave_map_producer_remove (p : PeerId) (l : List Producer) :
    (l.map (fun pr => Event.producer_remove p pr.id)).countP isPeerLeaveEvent
      = 0 := by
  induction l with
  | nil => rfl
  | cons pr rest ih => simp [List.countP_cons, isPeerLeaveEvent, ih]

/-- Claim C4 counterexample: for a roster that already contains peer `a`
(here with an empty producer list), `add_peer "a"` followed by
`remove_peer "a"` does not restore the initial roster — `add_peer` keeps the
existing entry and `remove_peer` then deletes it. -/
theorem add_then_remove_peer_counterexample :
    (remove_peer (add_peer ([("a", [])] : Roster) "a").1 "a").1
      ≠ [("a", ([] : List Producer))] := by
  decide

/-- Claim C4 (amended): for a peer `p` NOT already present in the roster,
`add_peer p`, any sequence of `add_producer(p, _)` calls, then
`remove_peer p` restores the roster to its initial value; over the whole
sequence exactly one `PeerJoin` and exactly one `PeerLeave` notification are
emitted, and `remove_peer` emits one `producer_remove(p, pr.id)` per
intervening `add_producer(p, pr)`. -/
theorem add_then_remove_peer_spec (roster : Roster) (p : PeerId)
    (prs : List Producer) (h : lookupRoster roster p = none) :
    (remove_peer (addProducersSeq (add_peer roster p).1 p prs).1 p).1 = roster
      ∧ (remove_peer (addProducersSeq (add_peer roster p).1 p prs).1 p).2 =
          prs.map (fun pr => Event.producer_remove p pr.id)
            ++ [Event.notification (Notification.PeerLeave p)]
      ∧ ((add_peer roster p).2
            ++ (addProducersSeq (add_peer roster p).1 p prs).2
            ++ (remove_peer (addProducersSeq (add_peer roster p).1 p prs).1 p).2
          ).countP isPeerJoinEvent = 1
      ∧ ((add_peer roster p).2
            ++ (addProducersSeq (add_peer roster p).1 p prs).2
            ++ (remove_peer (addProducersSeq (add_peer roster p).1 p prs).1 p).2
          ).countP isPeerLeaveEvent = 1 := by
  have h1 : (add_peer roster p).1 = roster ++ [(p, [])] := by
    simp [add_peer, rosterEntryOrDefault_of_lookup_none roster p h]
  have h2 : addProducersSeq (add_peer roster p).1 p prs =
      (roster ++ [(p, prs)], prs.map (fun pr => Event.producer_add p pr)) := by
    rw [h1]
    simpa using addProducersSeq_append_of_lookup_none roster p prs [] h
  have h3 : remove_peer (roster ++ [(p, prs)]) p =
      (roster, prs.map (fun pr => Event.producer_remove p pr.id)
        ++ [Event.notification (Notification.PeerLeave p)]) := by
    simp [remove_peer, rosterRemove_append_of_lookup_none roster p prs h]
  have he1 : (add_peer roster p).2 =
      [Event.notification (Notification.PeerJoin p)] := rfl
  refine ⟨?_, ?_, ?_, ?_⟩
  · rw [h2, h3]
  · rw [h2, h3]
  · rw [h2, h3, he1]
    simp only [List.countP_append, countP_join_map_producer_add,
      countP_join_map_producer_remove]
    simp [List.countP_cons, isPeerJoinEvent]
  · rw [h2, h3, he1]
    simp only [List.countP_append, countP_leave_map_producer_add,
      countP_leave_map_producer_remove]
    simp [List.countP_cons, isPeerLeaveEvent]

/-- Claim C4 witness: peer `a` absent from the initial roster, one producer
added between join and leave. -/
theorem add_then_remove_peer_spec_witness :
    lookupRoster [("b", [⟨"r"⟩])] "a" = none
      ∧ (remove_peer
            (addProducersSeq (add_peer [("b", [⟨"r"⟩])] "a").1 "a" [⟨"q"⟩]).1
            "a").1 = [("b", [⟨"r"⟩])]
      ∧ (remove_peer
            (addProducersSeq (add_peer [("b", [⟨"r"⟩])] "a").1 "a" [⟨"q"⟩]).1
            "a").2 =
          [Event.producer_remove "a" "q",
           Event.notification (Notification.PeerLeave "a")] := by
  have h := add_then_remove_peer_spec [("b", [⟨"r"⟩])] "a" [⟨"q"⟩] (by decide)
  refine ⟨by decide, h.1, ?_⟩
  rw [h.2.1]
  decide

/-- Claim C1: each of the four subscription callbacks a Peer Session
registers in `started` returns without sending when the event's associated
peer id equals the session's own id: the notification callback drops any
notification whose `associated_peer_id` is `self.id`, and the echo,
producer-add and producer-remove callbacks drop events whose peer id is
`self.id`. -/
theorem peer_session_self_suppression (own : PeerId) (n : Notification)
    (text : String) (pr : Producer) (q : ProducerId)
    (h : n.associated_peer_id = some own) :
    notification_callback own n = none
      ∧ echo_callback own own text = none
      ∧ producer_add_callback own own pr = none
      ∧ producer_remove_callback own own q = none := by
  refine ⟨?_, by simp [echo_callback], by simp [producer_add_callback],
    by simp [producer_remove_callback]⟩
  simp [notification_callback, h]

/-- Claim C1 witness: session `a` observing its own join, echo and producer
events. -/
theorem peer_session_self_suppression_witness :
    (Notification.PeerJoin "a").associated_peer_id = some "a"
      ∧ notification_callback "a" (Notification.PeerJoin "a") = none
      ∧ echo_callback "a" "a" "hi" = none
      ∧ producer_add_callback "a" "a" ⟨"p"⟩ = none
      ∧ producer_remove_callback "a" "a" "q" = none :=
  ⟨by decide,
   peer_session_self_suppression "a" (Notification.PeerJoin "a") "hi" ⟨"p"⟩
     "q" (by decide)⟩

/-- Claim C6: handling `Consume` while no client capabilities are stored (no
prior `Init`) logs the protocol error and does nothing else: the session
state is unchanged, no consume task is spawned (so no consumer is created and
no `ConsumerCreated` is ever sent, since only the spawned consume task sends
it), and no `Stop` is posted, so the session keeps serving messages. -/
theorem consume_without_init_spec (s : SessionState) (q : ProducerId)
    (h : s.client_rtp_capabilities = none) :
    handleC2S s (C2S.Consume q) =
        (s, [SessionEffect.logNoCapabilities s.id])
      ∧ (handleC2S s (C2S.Consume q)).1 = s
      ∧ SessionEffect.stop ∉ (handleC2S s (C2S.Consume q)).2
      ∧ (handleC2S s (C2S.Consume q)).2.countP isSpawnConsume = 0 := by
  simp [handleC2S, h, isSpawnConsume, List.countP_cons]

/-- Claim C6 witness: a fresh session (`client_rtp_capabilities = none`)
receiving `Consume`. -/
theorem consume_without_init_spec_witness :
    (⟨"b", none, [], []⟩ : SessionState).client_rtp_capabilities = none
      ∧ handleC2S ⟨"b", none, [], []⟩ (C2S.Consume "p") =
          (⟨"b", none, [], []⟩, [SessionEffect.logNoCapabilities "b"])
      ∧ SessionEffect.stop ∉
          (handleC2S ⟨"b", none, [], []⟩ (C2S.Consume "p")).2 :=
  ⟨rfl,
   (consume_without_init_spec ⟨"b", none, [], []⟩ "p" rfl).1,
   (consume_without_init_spec ⟨"b", none, [], []⟩ "p" rfl).2.2.1⟩

/-- Claim C7: `PeerConnection::started` performs exactly, in order: send
`Init`; send one `PeerJoin` per peer of a `get_all_peers` snapshot taken
before the self-announce; `add_peer(self.id)` (which broadcasts exactly this
peer's `PeerJoin`); subscribe to notification, echo, producer_add and
producer_remove; send one `ProducerAdd` per pair of a `get_all_producers`
snapshot taken after the self-announce. -/
theorem started_sequence_spec (selfId : PeerId) (vcId : VcId)
    (roster : Roster) :
    (PeerConnection.started selfId vcId roster).1 =
        [StartAction.sendInit vcId]
          ++ (get_all_peers roster).map
              (fun q => StartAction.sendNotification (Notification.PeerJoin q))
          ++ [StartAction.vcAddPeer selfId]
          ++ [StartAction.subscribe SubKind.notification,
              StartAction.subscribe SubKind.echo,
              StartAction.subscribe SubKind.producer_add,
              StartAction.subscribe SubKind.producer_remove]
          ++ (get_all_producers (add_peer roster selfId).1).map
              (fun pq => StartAction.sendProducerAdd pq.1 pq.2)
      ∧ (PeerConnection.started selfId vcId roster).2.1 =
          (add_peer roster selfId).1
      ∧ (PeerConnection.started selfId vcId roster).2.2 =
          [Event.notification (Notification.PeerJoin selfId)] := by
  refine ⟨?_, rfl, rfl⟩
  simp [PeerConnection.started]

theorem registryLookup_insert_self (reg : Registry) (i : VcId) (w : WeakVc) :
    registryLookup (registryInsert reg i w) i = some w := by
  induction reg with
  | nil => simp [registryInsert, registryLookup]
  | cons e rest ih =>
      obtain ⟨j, v⟩ := e
      by_cases hj : j = i
      · simp [registryInsert, registryLookup, hj]
      · simp [registryInsert, registryLookup, hj, ih]

/-- Claim C8: if the registry holds an entry for the id whose weak reference
upgrades, `get_or_create_vc` returns that same VC instance without
constructing a new one and leaves the map unchanged; when the entry is
absent or dead (and construction succeeds), a new VC is constructed, and its
weak reference is stored under the id, overwriting any dead entry. -/
theorem get_or_create_vc_spec (reg : Registry) (i : VcId) (fresh : Nat)
    (createOk : Bool) (w : WeakVc) (v : Nat) :
    (registryLookup reg i = some w → w.upgrade = some v →
        get_or_create_vc reg i fresh createOk = Except.ok (v, reg, false))
      ∧ ((registryLookup reg i = none
            ∨ (registryLookup reg i = some w ∧ w.upgrade = none)) →
          createOk = true →
          get_or_create_vc reg i fresh createOk =
              Except.ok (fresh, registryInsert reg i ⟨fresh, true⟩, true)
            ∧ registryLookup (registryInsert reg i ⟨fresh, true⟩) i =
                some ⟨fresh, true⟩) := by
  constructor
  · intro h1 h2
    simp [get_or_create_vc, h1, h2]
  · rintro (h | ⟨h1, h2⟩) hok <;> subst hok
    · exact ⟨by simp [get_or_create_vc, h],
        registryLookup_insert_self reg i ⟨fresh, true⟩⟩
    · exact ⟨by simp [get_or_create_vc, h1, h2],
        registryLookup_insert_self reg i ⟨fresh, true⟩⟩

/-- Claim C8 witness: a live entry is returned as-is; a dead entry is
overwritten by a freshly constructed VC. -/
theorem get_or_create_vc_spec_witness :
    get_or_create_vc [("v", ⟨5, true⟩)] "v" 9 true =
        Except.ok (5, [("v", ⟨5, true⟩)], false)
      ∧ get_or_create_vc [("v", ⟨5, false⟩)] "v" 9 true =
          Except.ok (9, registryInsert [("v", ⟨5, false⟩)] "v" ⟨9, true⟩, true) :=
  ⟨(get_or_create_vc_spec [("v", ⟨5, true⟩)] "v" 9 true ⟨5, true⟩ 5).1
      rfl rfl,
   ((get_or_create_vc_spec [("v", ⟨5, false⟩)] "v" 9 true ⟨5, false⟩ 0).2
      (Or.inr ⟨rfl, rfl⟩) rfl).1⟩

/-- Claim C9 is violated by the code: the close handler attached in
`get_or_create_vc` captures only the `VcId` and removes the map entry under
that id unconditionally.  At the failing input — the registry holding a
newer, still-live VC instance (instance 2, upgradeable) under id "dreamh"
while the close handler fired by a prior instance runs — the newer entry is
deleted. -/
theorem vc_close_handler_stale_deletes_newer :
    vc_close_handler [("dreamh", ⟨2, true⟩)] "dreamh" = []
      ∧ registryLookup (vc_close_handler [("dreamh", ⟨2, true⟩)] "dreamh")
          "dreamh" = none
      ∧ WeakVc.upgrade ⟨2, true⟩ = some 2 := by
  decide

end Misosoup
